import Mathlib

/-!
Verification of the Elemaq Shaft Designer computational core
(`src/models/loads.py`, `src/models/geometry.py`, `src/analysis/utils.py`,
`src/analysis/statics.py`, `src/analysis/fatigue_factors.py`,
`src/analysis/fatigue.py`, `src/analysis/optimization.py`).

Conventions of the embedding:
  * Exact rationals (`ℚ`) stand for Python floats in the geometry and
    statics layer, where the code performs only field arithmetic and
    comparisons; the magnitude arrays of `calculate_diagrams` and the whole
    fatigue layer use `ℝ` because the code takes square roots and real
    powers there.
  * `loads.py` stores a `RadialForce` as `(magnitude, angle, position)` and
    derives the components `fy = magnitude * cos(radians angle)` and
    `fz = magnitude * sin(radians angle)`; the statics code consumes a
    force only through `position`, `fy` and `fz`, so the embedding
    represents a force directly by those derived components.
  * Python dictionaries keyed by strings are association lists built with
    an insert-or-overwrite operation (`dinsert`), preserving the insertion
    order and overwrite behaviour of `dict`.  The two position entries
    stored under the fixed keys `A_pos` / `B_pos` in the reaction dict are
    kept in a separate field of the record (no caller ever names a bearing
    `A_pos` or `B_pos`).
  * Numpy array expressions are modelled pointwise: an array produced from
    the sample array `x` is the list obtained by mapping the pointwise
    formula over `x`.
-/

namespace ShaftDesigner

/-! ## Load model (`src/models/loads.py`)

A `RadialForce` is represented by its position (mm) and its two derived
transverse components `fy`, `fz` (N); a `Torque` carries its single
`magnitude` field (N·m) and position (mm) — the dataclass in `loads.py`
has no alternating/mean decomposition. -/

structure RadialForce where
  position : ℚ
  fy : ℚ
  fz : ℚ
deriving DecidableEq

structure Torque where
  position : ℚ
  magnitude : ℚ
deriving DecidableEq

/-! ## Geometry model (`src/models/geometry.py`) -/

/-- The `Bearing` dataclass: `name`, simplified `type` string, `width` (mm),
`fixed_axial` flag.  -/
structure Bearing where
  name : String
  btype : String
  width : ℚ
  fixed_axial : Bool
deriving DecidableEq

/-- A machine element attached to a node. `bearing` embeds the `Bearing`
subclass of `MachineElement`; every other subclass (plain `MachineElement`,
gears, pulleys built in the UI layer) is only ever distinguished from
`Bearing` by `isinstance` checks in the core, so they are collapsed into
`other` carrying the base-class `name` field. -/
inductive MachineElement where
  | bearing (b : Bearing)
  | other (name : String)
deriving DecidableEq

/-- The `ShaftNode` dataclass (`stress_concentration` is never touched by
the analysis core and is omitted). -/
structure ShaftNode where
  position : ℚ
  diameter_left : ℚ
  diameter_right : ℚ
  element : Option MachineElement := none
deriving DecidableEq

/-- The `Shaft` aggregate: node list, material dict (placeholder mapping,
unused by the functions verified here), force list, torque list. -/
structure Shaft where
  nodes : List ShaftNode := []
  material : List (String × ℚ) := []
  forces : List RadialForce := []
  torques : List Torque := []
deriving DecidableEq

/-- Position tolerance used by `Shaft.add_node` (`1e-5` mm). -/
def posTol : ℚ := 1 / 100000

/-- Body of the update branch of `Shaft.add_node`: the first node within
`posTol` of `position` has exactly its explicitly supplied fields replaced
(`if diameter_left is not None: ...` etc.); all other nodes are untouched. -/
def updateMatching (position : ℚ) (dl dr : Option ℚ) (element : Option MachineElement) :
    List ShaftNode → List ShaftNode
  | [] => []
  | n :: rest =>
    if |n.position - position| < posTol then
      { position := n.position
        diameter_left := dl.getD n.diameter_left
        diameter_right := dr.getD n.diameter_right
        element := match element with
          | some e => some e
          | none => n.element } :: rest
    else
      n :: updateMatching position dl dr element rest

/-- Stable insertion of a node into a position-sorted list; `sortNodes`
below is insertion sort with this step and models the stable
`self.nodes.sort(key=lambda n: n.position)` call of `add_node`. -/
def insertNode (a : ShaftNode) : List ShaftNode → List ShaftNode
  | [] => [a]
  | b :: l => if a.position ≤ b.position then a :: b :: l else b :: insertNode a l

/-- Stable sort of the node list by position (models `list.sort`). -/
def sortNodes : List ShaftNode → List ShaftNode
  | [] => []
  | a :: l => insertNode a (sortNodes l)

/-- `Shaft.add_node(position, diameter_left=None, diameter_right=None,
element=None)`.  If some node lies within `1e-5` of `position` the first
such node is updated in place; otherwise a new node is appended and the
list re-sorted.  In the insert branch the source defaults an unset
diameter to `20.0` in BOTH the empty-shaft case and the nonempty case (the
`else` branch only contains a comment and `pass` before assigning the same
default). -/
def add_node (s : Shaft) (position : ℚ) (dl dr : Option ℚ)
    (element : Option MachineElement) : Shaft :=
  match s.nodes.find? (fun n => |n.position - position| < posTol) with
  | some _ => { s with nodes := updateMatching position dl dr element s.nodes }
  | none =>
    { s with nodes :=
        sortNodes (s.nodes ++ [{ position := position
                                 diameter_left := dl.getD 20
                                 diameter_right := dr.getD 20
                                 element := element }]) }

/-- `Shaft.get_total_length`: last node position minus first node
position, `0.0` for an empty shaft. -/
def get_total_length (s : Shaft) : ℚ :=
  match s.nodes.getLast?, s.nodes.head? with
  | some lastN, some headN => lastN.position - headN.position
  | _, _ => 0

/-! ## Singularity bracket (`src/analysis/utils.py`) -/

/-- Pointwise value of the Macaulay bracket `<x - a>^n` computed by
`macaulay`: `0` where `x - a < 0`; on the mask `x - a >= 0` the value is
`1` for `n = 0`, `x - a` for `n = 1`, `(x - a)^n` for `n >= 2`, and `0`
for `n < 0` (that branch of the source is `pass`, leaving the zeros). -/
def macaulay1 (x a : ℚ) (n : ℤ) : ℚ :=
  if 0 ≤ x - a then
    if n = 0 then 1
    else if n = 1 then x - a
    else if 2 ≤ n then (x - a) ^ n.toNat
    else 0
  else 0

/-- `macaulay(x, a, n)` on a sample array: the numpy masked assignment is
the pointwise map of `macaulay1` over the samples. -/
def macaulay (xs : List ℚ) (a : ℚ) (n : ℤ) : List ℚ :=
  xs.map (fun x => macaulay1 x a n)

/-! ## Statics solver (`src/analysis/statics.py`) -/

/-- Insert-or-overwrite into a string-keyed association list, matching the
behaviour of assigning `d[k] = v` / building a `dict` literal: an existing
key keeps its place and gets the new value, a new key is appended. -/
def dinsert {α : Type} (l : List (String × α)) (k : String) (v : α) :
    List (String × α) :=
  match l with
  | [] => [(k, v)]
  | (k1, v1) :: rest =>
    if k1 = k then (k1, v) :: rest else (k1, v1) :: dinsert rest k v

/-- Dictionary lookup `d[k]` (as an `Option`). -/
def dget {α : Type} (l : List (String × α)) (k : String) : Option α :=
  match l with
  | [] => none
  | (k1, v1) :: rest => if k1 = k then some v1 else dget rest k

/-- The dictionary returned by `calculate_reactions`: the bearing-name
keyed `(Ry, Rz)` tuples in `entries`, and the `A_pos` / `B_pos` float
entries in `posEntries`.  The empty Python dict `{}` is `⟨[], []⟩`. -/
structure ReactionResult where
  entries : List (String × ℚ × ℚ)
  posEntries : List (String × ℚ)
deriving DecidableEq

/-- The `bearings` list collected by the statics module:
`(node, node.element)` for each node whose element is a `Bearing`. -/
def bearingsOf (s : Shaft) : List (ShaftNode × Bearing) :=
  s.nodes.filterMap (fun n =>
    match n.element with
    | some (MachineElement.bearing b) => some (n, b)
    | _ => none)

/-- Accumulator `sum_force_Y` of `calculate_reactions`. -/
def sum_force_Y (s : Shaft) : ℚ := (s.forces.map (fun f => f.fy)).sum

/-- Accumulator `sum_force_Z` of `calculate_reactions`. -/
def sum_force_Z (s : Shaft) : ℚ := (s.forces.map (fun f => f.fz)).sum

/-- Accumulator `sum_moment_A_planeXY` of `calculate_reactions`. -/
def sum_moment_A_planeXY (s : Shaft) (pos_A : ℚ) : ℚ :=
  (s.forces.map (fun f => f.fy * (f.position - pos_A))).sum

/-- Accumulator `sum_moment_A_planeXZ` of `calculate_reactions`. -/
def sum_moment_A_planeXZ (s : Shaft) (pos_A : ℚ) : ℚ :=
  (s.forces.map (fun f => f.fz * (f.position - pos_A))).sum

/-- `calculate_reactions(shaft)`.  Exactly two bearing nodes are required
(otherwise the empty dict is returned); a zero span returns zero
reactions; otherwise each bending plane is solved independently with
`R_B = - sum_moment_A / L_span` and `R_A = - R_B - sum_force`. -/
def calculate_reactions (s : Shaft) : ReactionResult :=
  match bearingsOf s with
  | [(nA, bA), (nB, bB)] =>
    let pos_A := nA.position
    let pos_B := nB.position
    let L_span := pos_B - pos_A
    if L_span = 0 then
      ⟨dinsert (dinsert [] bA.name ((0 : ℚ), (0 : ℚ))) bB.name ((0 : ℚ), (0 : ℚ)), []⟩
    else
      let Rby := (- sum_moment_A_planeXY s pos_A) / L_span
      let Ray := - Rby - sum_force_Y s
      let Rbz := (- sum_moment_A_planeXZ s pos_A) / L_span
      let Raz := - Rbz - sum_force_Z s
      ⟨dinsert (dinsert [] bA.name (Ray, Raz)) bB.name (Rby, Rbz),
       [("A_pos", pos_A), ("B_pos", pos_B)]⟩
  | _ => ⟨[], []⟩

/-- The tuple `reactions[name]` read by `calculate_diagrams` for a support
name.  The `getD (0, 0)` default is unreachable: whenever
`calculate_diagrams` performs this lookup the same name was just inserted
by `calculate_reactions`, so a `KeyError` cannot occur. -/
def reactionFor (r : ReactionResult) (name : String) : ℚ × ℚ :=
  (dget r.entries name).getD (0, 0)

/-- `np.linspace(0, L, n)`: `n` evenly spaced samples from `0` to `L`
(`[]` for `n = 0`, `[0]` for `n = 1`). -/
def linspace (L : ℚ) (n : ℕ) : List ℚ :=
  if n = 0 then []
  else if n = 1 then [0]
  else List.map (fun i : ℕ => L * (i : ℚ) / ((n : ℚ) - 1)) (List.range n)

/-- Pointwise value of the local array `Vy` of `calculate_diagrams`:
reaction steps plus a step per applied force, in the XY plane. -/
def Vy_at (s : Shaft) (xv : ℚ) : ℚ :=
  match bearingsOf s with
  | [(nA, bA), (nB, bB)] =>
    let r := calculate_reactions s
    (reactionFor r bA.name).1 * macaulay1 xv nA.position 0
      + (reactionFor r bB.name).1 * macaulay1 xv nB.position 0
      + (s.forces.map (fun f => f.fy * macaulay1 xv f.position 0)).sum
  | _ => 0

/-- Pointwise value of the local array `Vz` of `calculate_diagrams`. -/
def Vz_at (s : Shaft) (xv : ℚ) : ℚ :=
  match bearingsOf s with
  | [(nA, bA), (nB, bB)] =>
    let r := calculate_reactions s
    (reactionFor r bA.name).2 * macaulay1 xv nA.position 0
      + (reactionFor r bB.name).2 * macaulay1 xv nB.position 0
      + (s.forces.map (fun f => f.fz * macaulay1 xv f.position 0)).sum
  | _ => 0

/-- Pointwise value of the local array `My_bending` of
`calculate_diagrams` (ramp contributions in the XY plane). -/
def My_bending_at (s : Shaft) (xv : ℚ) : ℚ :=
  match bearingsOf s with
  | [(nA, bA), (nB, bB)] =>
    let r := calculate_reactions s
    (reactionFor r bA.name).1 * macaulay1 xv nA.position 1
      + (reactionFor r bB.name).1 * macaulay1 xv nB.position 1
      + (s.forces.map (fun f => f.fy * macaulay1 xv f.position 1)).sum
  | _ => 0

/-- Pointwise value of the local array `Mz_bending` of
`calculate_diagrams`. -/
def Mz_bending_at (s : Shaft) (xv : ℚ) : ℚ :=
  match bearingsOf s with
  | [(nA, bA), (nB, bB)] =>
    let r := calculate_reactions s
    (reactionFor r bA.name).2 * macaulay1 xv nA.position 1
      + (reactionFor r bB.name).2 * macaulay1 xv nB.position 1
      + (s.forces.map (fun f => f.fz * macaulay1 xv f.position 1)).sum
  | _ => 0

/-- Pointwise value of the torque array `Tx` of `calculate_diagrams`:
a step per `Torque` entry, using the single `magnitude` field. -/
def Tx_at (s : Shaft) (xv : ℚ) : ℚ :=
  (s.torques.map (fun t => t.magnitude * macaulay1 xv t.position 0)).sum

/-- The 4-tuple `(x, V_total, M_total, Tx)` returned by
`calculate_diagrams` (the source returns exactly these four arrays; see
its docstring "Returns arrays for x positions, Shear (V), Moment (M), and
Torque (T)"). -/
structure Diagrams where
  x : List ℚ
  V_total : List ℝ
  M_total : List ℝ
  T : List ℚ

/-- `calculate_diagrams(shaft, num_points=200)`.  Zero total length
returns four empty arrays; an empty reaction dict returns the samples and
three zero arrays; otherwise the superposed shear/moment arrays are
combined into magnitudes `sqrt(Vy^2 + Vz^2)` and
`sqrt(My_bending^2 + Mz_bending^2)`, and the torque array is the step
superposition.  The bearing unpacking `bearings[0]`, `bearings[1]` of the
source cannot fail when the reaction dict is nonempty (then there are
exactly two bearing nodes); the per-point helper functions return `0` in
that unreachable case. -/
noncomputable def calculate_diagrams (s : Shaft) (num_points : ℕ) : Diagrams :=
  let L := get_total_length s
  if L = 0 then ⟨[], [], [], []⟩
  else
    let x := linspace L num_points
    let r := calculate_reactions s
    if r = ⟨[], []⟩ then
      ⟨x, x.map (fun _ => 0), x.map (fun _ => 0), x.map (fun _ => 0)⟩
    else
      ⟨x,
       x.map (fun xv => Real.sqrt (((Vy_at s xv : ℝ)) ^ 2 + ((Vz_at s xv : ℝ)) ^ 2)),
       x.map (fun xv => Real.sqrt (((My_bending_at s xv : ℝ)) ^ 2 + ((Mz_bending_at s xv : ℝ)) ^ 2)),
       x.map (fun xv => Tx_at s xv)⟩

/-- The return value of `calculate_diagrams` as the sequence Python
unpacks: a tuple of FOUR arrays `x, V_total, M_total, Tx` (rationals cast
to `ℝ` so the sequence is homogeneous).  Its length is the tuple arity. -/
noncomputable def calculate_diagrams_arrays (s : Shaft) (num_points : ℕ) : List (List ℝ) :=
  let d := calculate_diagrams s num_points
  [d.x.map (fun q => (q : ℝ)), d.V_total, d.M_total, d.T.map (fun q => (q : ℝ))]

/-! ## Optimizer (`src/analysis/optimization.py`)

`optimize_shaft` starts every iteration with
`x, V, Ma, Mm, Ta, Tm = calculate_diagrams(shaft, num_points=200)`: a
6-way unpack of the 4-tuple above.  The unpack itself raises `ValueError`
("not enough values to unpack (expected 6, got 4)") on the first
iteration for every shaft, so the whole loop body after that line is dead
code.  Raised exceptions are modelled with `Except String`.  Inside the
(dead) successful-unpack branch only the empty-`x` early return is
modelled; the first statement the remaining dead code would reach that
terminates it is the call
`calculate_min_diameter(..., torque_avg=tm_seg, ...)`, whose keyword does
not exist in the signature of `calculate_min_diameter` and would raise a
`TypeError` — the zone bookkeeping through `st.session_state` in between
is unreachable from every input and is not modelled further. -/

/-- The structured result dictionaries of `optimize_shaft`:
`{"success": True, "log": [...]}` or
`{"success": False, "message": "..."}`. -/
structure OptResult where
  success : Bool
  log : Option (List String)
  message : Option String
deriving DecidableEq

/-- The `for iteration in range(max_iterations)` loop of `optimize_shaft`,
with the accumulated `iteration_log`; falling off the end of the loop (or
breaking) returns the success dictionary. -/
noncomputable def optimize_loop (shaft : Shaft) (iteration_log : List String) :
    ℕ → Except String OptResult
  | 0 => Except.ok ⟨true, some iteration_log, none⟩
  | _k + 1 =>
    match calculate_diagrams_arrays shaft 200 with
    | [x, _V, _Ma, _Mm, _Ta, _Tm] =>
      -- dead branch: the scrutinee always has exactly four elements
      if x.isEmpty then Except.ok ⟨false, none, some "Analysis failed to run."⟩
      else Except.error "TypeError: calculate_min_diameter got an unexpected keyword argument torque_avg"
    | _ => Except.error "ValueError: not enough values to unpack (expected 6, got 4)"

/-- `optimize_shaft(shaft, safety_factor=2.0, max_iterations=5)`. -/
noncomputable def optimize_shaft (shaft : Shaft) (safety_factor : ℝ)
    (max_iterations : ℕ) : Except String OptResult :=
  let _ := safety_factor
  optimize_loop shaft [] max_iterations

/-! ## Fatigue factors (`src/analysis/fatigue_factors.py`) -/

/-- `K_fadiga(res_ult)`: the uncorrected endurance limit estimate,
`0.5 * Sut` up to `1400e6` Pa, else `700e6` Pa. -/
noncomputable def K_fadiga (res_ult : ℝ) : ℝ :=
  if res_ult ≤ 1400e6 then 0.5 * res_ult else 700e6

/-- The `acabamentoDict` table of `K_acabamento` as a lookup. -/
def acabamentoDict (acab_sup : String) : Option (ℝ × ℝ) :=
  if acab_sup = "retificado" then some (1.58, -0.085)
  else if acab_sup = "laminado a frio" then some (4.51, -0.265)
  else if acab_sup = "usinado" then some (4.51, -0.265)
  else if acab_sup = "laminado a quente" then some (57.7, -0.718)
  else if acab_sup = "forjado" then some (272.0, -0.995)
  else none

/-- `K_acabamento(res_ult, acab_sup)`: surface-finish factor
`a * (Sut in MPa)^b`; a key absent from the table returns `1.0` (the
source checks `if acab_sup not in acabamentoDict: return 1.0` before ever
touching the machined coefficients). -/
noncomputable def K_acabamento (res_ult : ℝ) (acab_sup : String) : ℝ :=
  match acabamentoDict acab_sup with
  | none => 1.0
  | some (a, b) => a * (res_ult / 1e6) ^ b

/-- `K_tamanho(tipo_carga, diam)`: size factor, diameter in metres. -/
noncomputable def K_tamanho (tipo_carga : String) (diam : ℝ) : ℝ :=
  let de_mm := diam * 1000
  if tipo_carga ≠ "flexão" ∧ tipo_carga ≠ "torção" then 1.0
  else if de_mm < 2.79 then 1.24 * (2.79 : ℝ) ^ (-0.107 : ℝ)
  else if 2.79 ≤ de_mm ∧ de_mm ≤ 51 then 1.24 * de_mm ^ (-0.107 : ℝ)
  else if 51 < de_mm ∧ de_mm ≤ 254 then 1.51 * de_mm ^ (-0.157 : ℝ)
  else if 254 < de_mm then 0.6
  else 1.0

/-- `K_carga(tipo_carga)`: load-type factor with default `1.0`. -/
def K_carga (tipo_carga : String) : ℝ :=
  if tipo_carga = "flexão" then 1.0
  else if tipo_carga = "axial" then 0.85
  else if tipo_carga = "torção" then 0.59
  else 1.0

/-- The exact-temperature table of `K_temperatura`. -/
noncomputable def kdTable (tc : ℝ) : Option ℝ :=
  if tc = 20 then some 1.0
  else if tc = 50 then some 1.010
  else if tc = 100 then some 1.020
  else if tc = 150 then some 1.025
  else if tc = 200 then some 1.020
  else if tc = 250 then some 1.0
  else if tc = 300 then some 0.975
  else if tc = 350 then some 0.943
  else if tc = 400 then some 0.900
  else if tc = 450 then some 0.843
  else if tc = 500 then some 0.768
  else if tc = 550 then some 0.672
  else if tc = 600 then some 0.549
  else none

/-- `K_temperatura(tc)`: exact table hit, else the 4th-order polynomial
clamped into `[0.1, 1.025]`. -/
noncomputable def K_temperatura (tc : ℝ) : ℝ :=
  match kdTable tc with
  | some v => v
  | none =>
    let kd := 0.9877 + 0.6507e-3 * tc - 0.3414e-5 * tc ^ 2
      + 0.562e-8 * tc ^ 3 - 6.246e-12 * tc ^ 4
    let kd := if kd > 1.025 then 1.025 else kd
    if kd < 0.1 then 0.1 else kd

/-- The `k_conf` reliability table of `K_conf` as a lookup. -/
def confDict (confiabilidade : String) : Option ℝ :=
  if confiabilidade = "50%" then some 1.0
  else if confiabilidade = "90%" then some 0.897
  else if confiabilidade = "95%" then some 0.868
  else if confiabilidade = "99%" then some 0.814
  else if confiabilidade = "99.9%" then some 0.753
  else if confiabilidade = "99.99%" then some 0.702
  else if confiabilidade = "99.999%" then some 0.659
  else if confiabilidade = "99.9999%" then some 0.620
  else none

/-- `K_conf(confiabilidade)`: `k_conf.get(confiabilidade, 1.0)` — the
default for an unmatched key is `1.0` (the 50% value), per the source
comment "Default 50%". -/
noncomputable def K_conf (confiabilidade : String) : ℝ :=
  (confDict confiabilidade).getD 1.0

/-- `marin_eq(...)`: the corrected endurance limit
`ka * kb * kc * kd * ke * kf * Se_est`. -/
noncomputable def marin_eq (res_ult se_est : ℝ) (acab_superficial : String)
    (diam : ℝ) (tip_carga : String) (temp : ℝ) (confiabilidade : String)
    (kf_misc : ℝ) : ℝ :=
  K_acabamento res_ult acab_superficial * K_tamanho tip_carga diam
    * K_carga tip_carga * K_temperatura temp * K_conf confiabilidade
    * kf_misc * se_est

/-! ## Fatigue evaluator (`src/analysis/fatigue.py`) -/

/-- The `fatigue_config` dictionary consumed by `calculate_min_diameter`. -/
structure FatigueConfig where
  surface : String
  reliability : String
  temp : ℝ
  kf : ℝ

/-- The default configuration substituted when `fatigue_config is None`. -/
def defaultFatigueConfig : FatigueConfig :=
  { surface := "usinado", reliability := "99%", temp := 20.0, kf := 1.0 }

/-- The load terms `A` and `B` of `calculate_min_diameter`:
`sqrt(4 (Kf M)^2 + 3 (Kfs T)^2)` (the same formula serves the alternating
pair `(Ma, Ta)` and the mean pair `(Mm, Tm)`). -/
noncomputable def loadTerm (Kf Kfs M T : ℝ) : ℝ :=
  Real.sqrt (4.0 * (Kf * M) ^ 2 + 3.0 * (Kfs * T) ^ 2)

/-- The endurance limit actually used by `calculate_min_diameter`:
`se_overwrite` when that argument is truthy (not `None` and not `0.0`),
otherwise the Marin chain at the guessed diameter `d_guess = 0.05` m with
load type bending. -/
noncomputable def se_used (fatigue_config : Option FatigueConfig)
    (se_overwrite : Option ℝ) (Sut : ℝ) : ℝ :=
  let cfg := fatigue_config.getD defaultFatigueConfig
  match se_overwrite with
  | some v => if v = 0 then marin_eq Sut (K_fadiga Sut) cfg.surface 0.05 "flexão" cfg.temp cfg.reliability cfg.kf else v
  | none => marin_eq Sut (K_fadiga Sut) cfg.surface 0.05 "flexão" cfg.temp cfg.reliability cfg.kf

/-- `calculate_min_diameter(moment_amp, torque_mean, Sut, Sy, moment_mean,
torque_amp, Kf, Kfs, n, fatigue_config, se_overwrite)`: the generalized
ASME-elliptic sizing
`d^3 = (16 n / pi) * sqrt((A/Se)^2 + (B/Sy)^2)` in metres, converted to mm. -/
noncomputable def calculate_min_diameter (moment_amp torque_mean Sut Sy : ℝ)
    (moment_mean torque_amp Kf Kfs n : ℝ)
    (fatigue_config : Option FatigueConfig) (se_overwrite : Option ℝ) : ℝ :=
  let Se := se_used fatigue_config se_overwrite Sut
  let A := loadTerm Kf Kfs moment_amp torque_amp
  let B := loadTerm Kf Kfs moment_mean torque_mean
  let term_root := Real.sqrt ((A / Se) ^ 2 + (B / Sy) ^ 2)
  let d_meters := (16.0 * n / Real.pi * term_root) ^ ((1 : ℝ) / 3)
  d_meters * 1000.0

/-! ## Helper lemmas -/

theorem linspace_length (L : ℚ) (n : ℕ) : (linspace L n).length = n := by
  unfold linspace
  split_ifs with h0 h1
  · simp [h0]
  · simp [h1]
  · rw [List.length_map, List.length_range]

theorem dinsert_ne_nil {α : Type} (l : List (String × α)) (k : String) (v : α) :
    dinsert l k v ≠ [] := by
  cases l with
  | nil => simp [dinsert]
  | cons p rest =>
    obtain ⟨k1, v1⟩ := p
    unfold dinsert
    split_ifs <;> simp

/-- Shape of `calculate_reactions` when the span between the two bearings
is zero. -/
theorem calculate_reactions_span_zero (s : Shaft) (nA nB : ShaftNode) (bA bB : Bearing)
    (hb : bearingsOf s = [(nA, bA), (nB, bB)])
    (hspan : nB.position - nA.position = 0) :
    calculate_reactions s =
      ⟨dinsert (dinsert [] bA.name ((0 : ℚ), (0 : ℚ))) bB.name ((0 : ℚ), (0 : ℚ)), []⟩ := by
  unfold calculate_reactions
  rw [hb]
  simp only [if_pos hspan]

/-- Shape of `calculate_reactions` when the span between the two bearings
is nonzero. -/
theorem calculate_reactions_main (s : Shaft) (nA nB : ShaftNode) (bA bB : Bearing)
    (hb : bearingsOf s = [(nA, bA), (nB, bB)])
    (hspan : nB.position - nA.position ≠ 0) :
    calculate_reactions s =
      ⟨dinsert (dinsert [] bA.name
          (-((- sum_moment_A_planeXY s nA.position) / (nB.position - nA.position)) - sum_force_Y s,
           -((- sum_moment_A_planeXZ s nA.position) / (nB.position - nA.position)) - sum_force_Z s))
         bB.name
          ((- sum_moment_A_planeXY s nA.position) / (nB.position - nA.position),
           (- sum_moment_A_planeXZ s nA.position) / (nB.position - nA.position)),
       [("A_pos", nA.position), ("B_pos", nB.position)]⟩ := by
  unfold calculate_reactions
  rw [hb]
  simp only [if_neg hspan]

/-- With any bearing count other than two, `calculate_reactions` returns
the empty dict. -/
theorem calculate_reactions_not_two (s : Shaft)
    (h : (bearingsOf s).length ≠ 2) : calculate_reactions s = ⟨[], []⟩ := by
  unfold calculate_reactions
  split
  · rename_i heq
    exact absurd (by rw [heq]; rfl) h
  · rfl

/-- With exactly two bearing nodes the reaction dict is never empty. -/
theorem calculate_reactions_two_ne_empty (s : Shaft) (nA nB : ShaftNode) (bA bB : Bearing)
    (hb : bearingsOf s = [(nA, bA), (nB, bB)]) :
    calculate_reactions s ≠ (⟨[], []⟩ : ReactionResult) := by
  by_cases hspan : nB.position - nA.position = 0
  · rw [calculate_reactions_span_zero s nA nB bA bB hb hspan]
    intro hcontra
    exact dinsert_ne_nil _ _ _ (congrArg ReactionResult.entries hcontra)
  · rw [calculate_reactions_main s nA nB bA bB hb hspan]
    intro hcontra
    exact dinsert_ne_nil _ _ _ (congrArg ReactionResult.entries hcontra)

/-- Shape of `calculate_diagrams` when the total length is zero. -/
theorem calculate_diagrams_zero_length (s : Shaft) (n : ℕ)
    (hL : get_total_length s = 0) :
    calculate_diagrams s n = ⟨[], [], [], []⟩ := by
  unfold calculate_diagrams
  simp only [if_pos hL]

/-- Shape of `calculate_diagrams` when the reaction dict is empty. -/
theorem calculate_diagrams_no_reactions (s : Shaft) (n : ℕ)
    (hL : get_total_length s ≠ 0) (hr : calculate_reactions s = ⟨[], []⟩) :
    calculate_diagrams s n =
      ⟨linspace (get_total_length s) n,
       (linspace (get_total_length s) n).map (fun _ => 0),
       (linspace (get_total_length s) n).map (fun _ => 0),
       (linspace (get_total_length s) n).map (fun _ => 0)⟩ := by
  unfold calculate_diagrams
  simp only [if_neg hL, if_pos hr]

/-- Shape of `calculate_diagrams` when the reaction dict is nonempty. -/
theorem calculate_diagrams_main (s : Shaft) (n : ℕ)
    (hL : get_total_length s ≠ 0) (hr : calculate_reactions s ≠ (⟨[], []⟩ : ReactionResult)) :
    calculate_diagrams s n =
      ⟨linspace (get_total_length s) n,
       (linspace (get_total_length s) n).map
         (fun xv => Real.sqrt (((Vy_at s xv : ℝ)) ^ 2 + ((Vz_at s xv : ℝ)) ^ 2)),
       (linspace (get_total_length s) n).map
         (fun xv => Real.sqrt (((My_bending_at s xv : ℝ)) ^ 2 + ((Mz_bending_at s xv : ℝ)) ^ 2)),
       (linspace (get_total_length s) n).map (fun xv => Tx_at s xv)⟩ := by
  unfold calculate_diagrams
  simp only [if_neg hL, if_neg hr]

theorem insertNode_perm (a : ShaftNode) (l : List ShaftNode) :
    (insertNode a l).Perm (a :: l) := by
  induction l with
  | nil => exact List.Perm.refl _
  | cons b t ih =>
    unfold insertNode
    split_ifs
    · exact List.Perm.refl _
    · exact (ih.cons b).trans (List.Perm.swap a b t)

theorem sortNodes_perm (l : List ShaftNode) : (sortNodes l).Perm l := by
  induction l with
  | nil => exact List.Perm.refl _
  | cons a t ih =>
    unfold sortNodes
    exact (insertNode_perm a (sortNodes t)).trans (ih.cons a)

theorem insertNode_sorted (a : ShaftNode) (l : List ShaftNode)
    (h : l.Pairwise (fun x y => x.position ≤ y.position)) :
    (insertNode a l).Pairwise (fun x y => x.position ≤ y.position) := by
  induction l with
  | nil => simp [insertNode]
  | cons b t ih =>
    rw [List.pairwise_cons] at h
    obtain ⟨hb, ht⟩ := h
    unfold insertNode
    split_ifs with hab
    · refine List.pairwise_cons.mpr ⟨?_, List.pairwise_cons.mpr ⟨hb, ht⟩⟩
      intro y hy
      rcases List.mem_cons.mp hy with hy | hy
      · rw [hy]; exact hab
      · exact le_trans hab (hb y hy)
    · refine List.pairwise_cons.mpr ⟨?_, ih ht⟩
      intro y hy
      rcases List.mem_cons.mp ((insertNode_perm a t).mem_iff.mp hy) with hy2 | hy2
      · rw [hy2]; exact le_of_lt (lt_of_not_le hab)
      · exact hb y hy2

theorem sortNodes_sorted (l : List ShaftNode) :
    (sortNodes l).Pairwise (fun x y => x.position ≤ y.position) := by
  induction l with
  | nil => exact List.Pairwise.nil
  | cons a t ih => exact insertNode_sorted a (sortNodes t) ih

theorem updateMatching_map_position (p : ℚ) (dl dr : Option ℚ)
    (el : Option MachineElement) (l : List ShaftNode) :
    (updateMatching p dl dr el l).map (fun n => n.position) =
      l.map (fun n => n.position) := by
  induction l with
  | nil => rfl
  | cons n t ih =>
    unfold updateMatching
    split_ifs
    · rfl
    · simpa using ih

/-! ## Concrete example shafts -/

/-- Bearing named `A` (the defaults of the `Bearing` dataclass). -/
def bearingA : Bearing := { name := "A", btype := "Ball", width := 20, fixed_axial := false }

/-- Bearing named `B`. -/
def bearingB : Bearing := { name := "B", btype := "Ball", width := 20, fixed_axial := false }

/-- Node at position `0` carrying `bearingA`. -/
def nodeA : ShaftNode :=
  { position := 0, diameter_left := 20, diameter_right := 20,
    element := some (MachineElement.bearing bearingA) }

/-- Node at position `500` carrying `bearingB`. -/
def nodeB : ShaftNode :=
  { position := 500, diameter_left := 20, diameter_right := 20,
    element := some (MachineElement.bearing bearingB) }

/-- The classical test shaft of the spec: bearings at `0` and `500` mm and
a single downward 1000 N vertical force at `250` mm. -/
def classicalShaft : Shaft :=
  { nodes := [nodeA, nodeB],
    forces := [{ position := 250, fy := -1000, fz := 0 }] }

/-- A shaft with a single bearing node (unsolvable geometry). -/
def oneBearingShaft : Shaft :=
  { nodes := [nodeA, { position := 500, diameter_left := 20, diameter_right := 20 }],
    forces := [{ position := 250, fy := -1000, fz := 0 }] }

/-- The empty shaft (zero total length). -/
def emptyShaft : Shaft := {}

/-- A shaft whose two bearings sit at the same position `0` while the
shaft itself extends to `500` mm (zero span, nonzero length). -/
def coincidentShaft : Shaft :=
  { nodes := [nodeA,
              { position := 0, diameter_left := 20, diameter_right := 20,
                element := some (MachineElement.bearing bearingB) },
              { position := 500, diameter_left := 20, diameter_right := 20 }],
    forces := [{ position := 250, fy := -1000, fz := 0 }] }

/-- First of two bearings sharing the name `B1`. -/
def bearingB1 : Bearing := { name := "B1", btype := "Ball", width := 20, fixed_axial := false }

/-- Second bearing also named `B1` (different width, so the two elements
are distinct objects). -/
def bearingB2 : Bearing := { name := "B1", btype := "Ball", width := 30, fixed_axial := false }

/-- Node at `0` carrying `bearingB1`. -/
def dupNode0 : ShaftNode :=
  { position := 0, diameter_left := 20, diameter_right := 20,
    element := some (MachineElement.bearing bearingB1) }

/-- Node at `500` carrying `bearingB2`. -/
def dupNode500 : ShaftNode :=
  { position := 500, diameter_left := 20, diameter_right := 20,
    element := some (MachineElement.bearing bearingB2) }

/-- A shaft whose two bearing nodes at distinct positions `0` and `500`
carry equally named bearings, with a 1000 N force at `100` mm. -/
def dupNameShaft : Shaft :=
  { nodes := [dupNode0, dupNode500],
    forces := [{ position := 100, fy := 1000, fz := 0 }] }

/-! ## Claims -/

/-- Claim C8: for every sample array `x`, singularity position `a` and
integer exponent `n ≥ 0`, the Macaulay bracket `macaulay(x, a, n)`
evaluates pointwise to `0` when `x < a`, and when `x ≥ a` to `1` for
`n = 0`, to `x - a` for `n = 1`, and to `(x - a)^n` for `n ≥ 2`. -/
theorem macaulay_bracket_spec (xs : List ℚ) (a : ℚ) (n : ℤ) (hn : 0 ≤ n) :
    macaulay xs a n = xs.map (fun x => macaulay1 x a n) ∧
    ∀ x ∈ xs,
      (x < a → macaulay1 x a n = 0) ∧
      (a ≤ x → n = 0 → macaulay1 x a n = 1) ∧
      (a ≤ x → n = 1 → macaulay1 x a n = x - a) ∧
      (a ≤ x → 2 ≤ n → macaulay1 x a n = (x - a) ^ n.toNat) := by
  refine ⟨rfl, fun x _hx => ⟨?_, ?_, ?_, ?_⟩⟩
  · intro hlt
    have hneg : ¬ (0 : ℚ) ≤ x - a := not_le.mpr (sub_neg.mpr hlt)
    simp [macaulay1, hneg]
  · intro hge h0
    simp [macaulay1, sub_nonneg.mpr hge, h0]
  · intro hge h1
    simp [macaulay1, sub_nonneg.mpr hge, h1]
  · intro hge h2
    have hn0 : n ≠ 0 := by omega
    have hn1 : n ≠ 1 := by omega
    simp [macaulay1, sub_nonneg.mpr hge, hn0, hn1, h2]

/-- Witness for C8 at the concrete samples `[0, 1, 2]`, `a = 1`, `n = 1`. -/
theorem macaulay_bracket_spec_witness :
    (0 : ℤ) ≤ 1 ∧ (2 : ℚ) ∈ [(0 : ℚ), 1, 2] ∧ macaulay1 (2 : ℚ) 1 1 = 2 - 1 := by
  refine ⟨by decide, by decide, ?_⟩
  exact ((macaulay_bracket_spec [(0 : ℚ), 1, 2] 1 1 (by decide)).2 2
    (by decide)).2.2.1 (by norm_num) rfl

/-- Claim C3: with exactly two bearing nodes at distinct positions
`pos_A < pos_B` and distinct names, `calculate_reactions` stores, per
bending plane, `R_B = -(Σ F_i (x_i - pos_A)) / L` under the second
bearing name and `R_A = -R_B - Σ F_i` under the first, applied to the
`fy` and `fz` components; consequently `Ray + Rby + Σ fy = 0` and
`Raz + Rbz + Σ fz = 0` (exactly, in rational arithmetic). -/
theorem calculate_reactions_spec (s : Shaft) (nA nB : ShaftNode) (bA bB : Bearing)
    (hb : bearingsOf s = [(nA, bA), (nB, bB)])
    (hpos : nA.position < nB.position)
    (hname : bA.name ≠ bB.name) :
    dget (calculate_reactions s).entries bA.name =
      some (-((- sum_moment_A_planeXY s nA.position) / (nB.position - nA.position)) - sum_force_Y s,
            -((- sum_moment_A_planeXZ s nA.position) / (nB.position - nA.position)) - sum_force_Z s) ∧
    dget (calculate_reactions s).entries bB.name =
      some ((- sum_moment_A_planeXY s nA.position) / (nB.position - nA.position),
            (- sum_moment_A_planeXZ s nA.position) / (nB.position - nA.position)) ∧
    (-((- sum_moment_A_planeXY s nA.position) / (nB.position - nA.position)) - sum_force_Y s)
      + (- sum_moment_A_planeXY s nA.position) / (nB.position - nA.position)
      + sum_force_Y s = 0 ∧
    (-((- sum_moment_A_planeXZ s nA.position) / (nB.position - nA.position)) - sum_force_Z s)
      + (- sum_moment_A_planeXZ s nA.position) / (nB.position - nA.position)
      + sum_force_Z s = 0 := by
  have hspan : nB.position - nA.position ≠ 0 := sub_ne_zero.mpr (ne_of_gt hpos)
  rw [calculate_reactions_main s nA nB bA bB hb hspan]
  refine ⟨?_, ?_, by ring, by ring⟩
  · simp [dinsert, dget, hname]
  · simp [dinsert, dget, hname]

/-- Witness for C3 on the classical 500 mm shaft with a downward 1000 N
force at midspan. -/
theorem calculate_reactions_spec_witness :
    bearingsOf classicalShaft = [(nodeA, bearingA), (nodeB, bearingB)] ∧
    nodeA.position < nodeB.position ∧
    bearingA.name ≠ bearingB.name ∧
    dget (calculate_reactions classicalShaft).entries bearingB.name =
      some ((- sum_moment_A_planeXY classicalShaft nodeA.position)
              / (nodeB.position - nodeA.position),
            (- sum_moment_A_planeXZ classicalShaft nodeA.position)
              / (nodeB.position - nodeA.position)) := by
  refine ⟨by decide, by decide, by decide, ?_⟩
  exact (calculate_reactions_spec classicalShaft nodeA nodeB bearingA bearingB
    (by decide) (by decide) (by decide)).2.1

/-- Claim C10: `calculate_reactions` keys its result by bearing name, so
on `dupNameShaft` (two bearings at `0` and `500` both named `B1`, a
1000 N force at `100`) the dict holds a single reaction entry — the
second bearing's tuple `(-200, 0)` — although the first bearing's
computed reaction was `(-800, 0)`; the lookups `calculate_diagrams`
performs for the two support names both read that single entry. -/
theorem duplicate_bearing_names_overwrite :
    (calculate_reactions dupNameShaft).entries = [("B1", ((-200 : ℚ), (0 : ℚ)))] ∧
    -((- sum_moment_A_planeXY dupNameShaft 0) / (500 - 0)) - sum_force_Y dupNameShaft = -800 ∧
    reactionFor (calculate_reactions dupNameShaft) bearingB1.name = ((-200 : ℚ), 0) ∧
    reactionFor (calculate_reactions dupNameShaft) bearingB2.name = ((-200 : ℚ), 0) ∧
    ((-800 : ℚ), (0 : ℚ)) ≠ ((-200 : ℚ), (0 : ℚ)) := by
  have hb : bearingsOf dupNameShaft = [(dupNode0, bearingB1), (dupNode500, bearingB2)] := by
    decide
  have hspan : dupNode500.position - dupNode0.position ≠ 0 := by
    show (500 : ℚ) - 0 ≠ 0
    norm_num
  have hsmY : sum_moment_A_planeXY dupNameShaft dupNode0.position = 100000 := by
    simp [sum_moment_A_planeXY, dupNameShaft, dupNode0]
    norm_num
  have hsfY : sum_force_Y dupNameShaft = 1000 := by
    simp [sum_force_Y, dupNameShaft]
  have hsmZ : sum_moment_A_planeXZ dupNameShaft dupNode0.position = 0 := by
    simp [sum_moment_A_planeXZ, dupNameShaft, dupNode0]
  have hsfZ : sum_force_Z dupNameShaft = 0 := by
    simp [sum_force_Z, dupNameShaft]
  have hmain := calculate_reactions_main dupNameShaft dupNode0 dupNode500
    bearingB1 bearingB2 hb hspan
  rw [hsmY, hsmZ, hsfY, hsfZ] at hmain
  have hpos0 : dupNode0.position = 0 := rfl
  have hpos500 : dupNode500.position = 500 := rfl
  have hnames1 : bearingB1.name = "B1" := rfl
  have hnames2 : bearingB2.name = "B1" := rfl
  rw [hpos0, hpos500, hnames1, hnames2] at hmain
  have hentries : (calculate_reactions dupNameShaft).entries = [("B1", ((-200 : ℚ), (0 : ℚ)))] := by
    rw [hmain]
    simp [dinsert]
    norm_num
  refine ⟨hentries, ?_, ?_, ?_, by decide⟩
  · rw [show sum_moment_A_planeXY dupNameShaft 0 = 100000 from hsmY,
        show sum_force_Y dupNameShaft = 1000 from hsfY]
    norm_num
  · rw [reactionFor, hentries, hnames1]
    simp [dget]
  · rw [reactionFor, hentries, hnames2]
    simp [dget]

/-- Claim C7: degenerate statics never raise.  A bearing count other than
two yields the empty reaction dict; a zero span yields zero reactions; a
zero total length yields four empty arrays from `calculate_diagrams`; and
a nonzero-length shaft without exactly two bearings yields the sample
array plus three all-zero arrays of the same length. -/
theorem degenerate_statics_spec :
    (∀ s : Shaft, (bearingsOf s).length ≠ 2 →
        calculate_reactions s = (⟨[], []⟩ : ReactionResult)) ∧
    (∀ (s : Shaft) (nA nB : ShaftNode) (bA bB : Bearing),
        bearingsOf s = [(nA, bA), (nB, bB)] → nA.position = nB.position →
        ∀ e ∈ (calculate_reactions s).entries, e.2 = ((0 : ℚ), (0 : ℚ))) ∧
    (∀ (s : Shaft) (n : ℕ), get_total_length s = 0 →
        (calculate_diagrams s n).x = [] ∧ (calculate_diagrams s n).V_total = [] ∧
        (calculate_diagrams s n).M_total = [] ∧ (calculate_diagrams s n).T = []) ∧
    (∀ (s : Shaft) (n : ℕ), get_total_length s ≠ 0 → (bearingsOf s).length ≠ 2 →
        (calculate_diagrams s n).x.length = n ∧
        (calculate_diagrams s n).V_total = List.replicate n (0 : ℝ) ∧
        (calculate_diagrams s n).M_total = List.replicate n (0 : ℝ) ∧
        (calculate_diagrams s n).T = List.replicate n (0 : ℚ)) := by
  have replicate_of_map : ∀ (L : ℚ) (n : ℕ) (α : Type) (c : α),
      (linspace L n).map (fun _ => c) = List.replicate n c := by
    intro L n α c
    rw [List.eq_replicate_iff]
    refine ⟨?_, ?_⟩
    · rw [List.length_map, linspace_length]
    · intro b hb
      rcases List.mem_map.mp hb with ⟨xv, _, hxv⟩
      exact hxv.symm
  refine ⟨calculate_reactions_not_two, ?_, ?_, ?_⟩
  · intro s nA nB bA bB hb hpos e he
    have hspan : nB.position - nA.position = 0 := by rw [hpos, sub_self]
    rw [calculate_reactions_span_zero s nA nB bA bB hb hspan] at he
    by_cases hname : bA.name = bB.name
    · simp [dinsert, hname] at he
      subst he
      rfl
    · simp [dinsert, hname] at he
      rcases he with he | he <;> subst he <;> rfl
  · intro s n hL
    rw [calculate_diagrams_zero_length s n hL]
    exact ⟨rfl, rfl, rfl, rfl⟩
  · intro s n hL hcount
    have hre : calculate_reactions s = (⟨[], []⟩ : ReactionResult) :=
      calculate_reactions_not_two s hcount
    rw [calculate_diagrams_no_reactions s n hL hre]
    exact ⟨linspace_length _ n, replicate_of_map _ n ℝ 0, replicate_of_map _ n ℝ 0,
      replicate_of_map _ n ℚ 0⟩

/-- Witness for C7: the empty shaft, a one-bearing shaft of length 500,
and a shaft whose two bearings coincide at position 0. -/
theorem degenerate_statics_spec_witness :
    ((bearingsOf oneBearingShaft).length ≠ 2 ∧
      calculate_reactions oneBearingShaft = (⟨[], []⟩ : ReactionResult)) ∧
    (get_total_length emptyShaft = 0 ∧ (calculate_diagrams emptyShaft 200).x = []) ∧
    (get_total_length oneBearingShaft ≠ 0 ∧
      (calculate_diagrams oneBearingShaft 200).V_total = List.replicate 200 (0 : ℝ)) ∧
    (∀ e ∈ (calculate_reactions coincidentShaft).entries, e.2 = ((0 : ℚ), (0 : ℚ))) := by
  have h1 : (bearingsOf oneBearingShaft).length ≠ 2 := by decide
  have h2 : get_total_length oneBearingShaft ≠ 0 := by
    show (500 : ℚ) - 0 ≠ 0
    norm_num
  refine ⟨⟨h1, degenerate_statics_spec.1 oneBearingShaft h1⟩,
    ⟨rfl, (degenerate_statics_spec.2.2.1 emptyShaft 200 rfl).1⟩,
    ⟨h2, ((degenerate_statics_spec.2.2.2 oneBearingShaft 200 h2 h1).2.1)⟩,
    ?_⟩
  intro e he
  refine degenerate_statics_spec.2.1 coincidentShaft nodeA
    { position := 0, diameter_left := 20, diameter_right := 20,
      element := some (MachineElement.bearing bearingB) }
    bearingA bearingB (by decide) rfl e he

theorem sortNodes_pairwise_lt (l : List ShaftNode)
    (hd : l.Pairwise (fun a b => a.position ≠ b.position)) :
    (sortNodes l).Pairwise (fun a b => a.position < b.position) := by
  have hsorted := sortNodes_sorted l
  have hdist : (sortNodes l).Pairwise (fun a b => a.position ≠ b.position) :=
    ((sortNodes_perm l).pairwise_iff (fun {a b} h => h.symm)).mpr hd
  exact (hsorted.and hdist).imp (fun h => lt_of_le_of_ne h.1 h.2)

/-- Claim C5 (amended): on a shaft whose node positions are strictly
increasing, `add_node` either (a) updates, in place, only the supplied
fields of the first node lying within `1e-5` of the given position,
adding no node and leaving every position unchanged, or (b) inserts one
new node whose unset diameters default to `20` mm and re-sorts; in both
cases the node positions stay strictly increasing (hence duplicate-free). -/
theorem add_node_spec (s : Shaft) (p : ℚ) (dl dr : Option ℚ)
    (el : Option MachineElement)
    (hinv : s.nodes.Pairwise (fun a b => a.position < b.position)) :
    ((∃ n ∈ s.nodes, |n.position - p| < posTol) →
       (add_node s p dl dr el).nodes = updateMatching p dl dr el s.nodes ∧
       (add_node s p dl dr el).nodes.map (fun n => n.position) =
         s.nodes.map (fun n => n.position)) ∧
    ((∀ n ∈ s.nodes, ¬ |n.position - p| < posTol) →
       (add_node s p dl dr el).nodes.Perm
         ({ position := p, diameter_left := dl.getD 20, diameter_right := dr.getD 20,
            element := el } :: s.nodes)) ∧
    (add_node s p dl dr el).nodes.Pairwise (fun a b => a.position < b.position) := by
  cases hfind : s.nodes.find? (fun n => |n.position - p| < posTol) with
  | some n0 =>
    have hnodes : (add_node s p dl dr el).nodes = updateMatching p dl dr el s.nodes := by
      unfold add_node
      rw [hfind]
    have hmap : (add_node s p dl dr el).nodes.map (fun n => n.position) =
        s.nodes.map (fun n => n.position) := by
      rw [hnodes]
      exact updateMatching_map_position p dl dr el s.nodes
    refine ⟨fun _ => ⟨hnodes, hmap⟩, ?_, ?_⟩
    · intro hnone
      exact absurd (by simpa using List.find?_some hfind)
        (hnone n0 (List.mem_of_find?_eq_some hfind))
    · have : ((add_node s p dl dr el).nodes.map (fun n => n.position)).Pairwise (· < ·) := by
        rw [hmap]
        exact (List.pairwise_map).mpr hinv
      exact (List.pairwise_map).mp this
  | none =>
    have hnone : ∀ n ∈ s.nodes, ¬ |n.position - p| < posTol := by
      intro n hn
      have := List.find?_eq_none.mp hfind n hn
      simpa using this
    have hnodes : (add_node s p dl dr el).nodes =
        sortNodes (s.nodes ++
          [{ position := p, diameter_left := dl.getD 20, diameter_right := dr.getD 20,
             element := el }]) := by
      unfold add_node
      rw [hfind]
    have hperm : (add_node s p dl dr el).nodes.Perm
        ({ position := p, diameter_left := dl.getD 20, diameter_right := dr.getD 20,
           element := el } :: s.nodes) := by
      rw [hnodes]
      exact (sortNodes_perm _).trans (List.perm_append_singleton _ _)
    refine ⟨?_, fun _ => hperm, ?_⟩
    · intro hsome
      obtain ⟨n, hn, hnear⟩ := hsome
      exact absurd hnear (hnone n hn)
    · have hne : ∀ n ∈ s.nodes, n.position ≠ p := by
        intro n hn heq
        exact hnone n hn (by rw [heq, sub_self, abs_zero]; exact by norm_num [posTol])
      rw [hnodes]
      apply sortNodes_pairwise_lt
      rw [List.pairwise_append]
      refine ⟨hinv.imp (fun h => ne_of_lt h), List.pairwise_singleton _ _, ?_⟩
      intro a ha b hb
      rw [List.mem_singleton.mp hb]
      exact hne a ha

/-- Witness for C5: inserting a node at 250 into a two-node shaft keeps
positions strictly increasing. -/
theorem add_node_spec_witness :
    (oneBearingShaft.nodes.Pairwise (fun a b => a.position < b.position)) ∧
    (add_node oneBearingShaft 250 none none none).nodes.Pairwise
      (fun a b => a.position < b.position) :=
  ⟨by decide, (add_node_spec oneBearingShaft 250 none none none (by decide)).2.2⟩

/-- A shaft holding a single node of diameter 50 on both sides, away from
the default. -/
def fiftyShaft : Shaft :=
  { nodes := [{ position := 0, diameter_left := 50, diameter_right := 50 }] }

/-- Counterexample for C5 as stated: inserting a new node into
`fiftyShaft` (whose only known diameter is 50 mm) produces a node with
diameters `20`, not the nearest known diameter `50`. -/
theorem add_node_nearest_default_counterexample :
    ((add_node fiftyShaft 100 none none none).nodes.map
        (fun n => (n.position, n.diameter_left, n.diameter_right)))
      = [((0 : ℚ), (50 : ℚ), (50 : ℚ)), ((100 : ℚ), (20 : ℚ), (20 : ℚ))] ∧
    (20 : ℚ) ≠ 50 := by
  constructor
  · have hfind : fiftyShaft.nodes.find? (fun n => |n.position - (100 : ℚ)| < posTol) = none := by
      simp [fiftyShaft, List.find?_cons, posTol]
      norm_num
    unfold add_node
    rw [hfind]
    simp [fiftyShaft, sortNodes, insertNode]
  · norm_num

/-- Claim C1 (counterexample to the six-array signature): on the
classical valid two-bearing shaft, `calculate_diagrams` returns a tuple
of four arrays, not six — there are no separate `Ma`, `Mm`, `Ta`, `Tm`
outputs to be zero or equal to anything. -/
theorem calculate_diagrams_not_six_arrays :
    (calculate_diagrams_arrays classicalShaft 200).length ≠ 6 := by
  simp [calculate_diagrams_arrays]

/-- Claim C1 (amended): on a shaft with a valid two-bearing geometry and
nonzero total length, `calculate_diagrams` returns FOUR arrays
`(x, V_total, M_total, T)`, all of length `num_points`, and the single
bending array `M_total` equals the resultant magnitude
`sqrt(My_bending^2 + Mz_bending^2)` at every sample point; no separate
mean-bending array exists. -/
theorem calculate_diagrams_shape (s : Shaft) (num_points : ℕ)
    (nA nB : ShaftNode) (bA bB : Bearing)
    (hL : get_total_length s ≠ 0)
    (hb : bearingsOf s = [(nA, bA), (nB, bB)]) :
    (calculate_diagrams s num_points).x.length = num_points ∧
    (calculate_diagrams s num_points).V_total.length = num_points ∧
    (calculate_diagrams s num_points).M_total.length = num_points ∧
    (calculate_diagrams s num_points).T.length = num_points ∧
    (calculate_diagrams s num_points).M_total =
      (calculate_diagrams s num_points).x.map
        (fun xv => Real.sqrt (((My_bending_at s xv : ℝ)) ^ 2 + ((Mz_bending_at s xv : ℝ)) ^ 2)) := by
  have hr : calculate_reactions s ≠ (⟨[], []⟩ : ReactionResult) :=
    calculate_reactions_two_ne_empty s nA nB bA bB hb
  rw [calculate_diagrams_main s num_points hL hr]
  refine ⟨linspace_length _ _, ?_, ?_, ?_, rfl⟩
  · rw [List.length_map, linspace_length]
  · rw [List.length_map, linspace_length]
  · rw [List.length_map, linspace_length]

/-- Witness for C1 on the classical 500 mm shaft at 200 sample points. -/
theorem calculate_diagrams_shape_witness :
    get_total_length classicalShaft ≠ 0 ∧
    bearingsOf classicalShaft = [(nodeA, bearingA), (nodeB, bearingB)] ∧
    (calculate_diagrams classicalShaft 200).x.length = 200 ∧
    (calculate_diagrams classicalShaft 200).M_total.length = 200 := by
  have hL : get_total_length classicalShaft ≠ 0 := by
    show (500 : ℚ) - 0 ≠ 0
    norm_num
  have h := calculate_diagrams_shape classicalShaft 200 nodeA nodeB bearingA bearingB
    hL (by decide)
  exact ⟨hL, by decide, h.1, h.2.2.1⟩

/-- Claim C2: for every shaft, safety factor and positive iteration
budget, `optimize_shaft` raises `ValueError` on the very first iteration:
its 6-way unpack is applied to the 4-tuple produced by
`calculate_diagrams`.  It therefore never returns its documented result
dictionary. -/
theorem optimize_shaft_always_raises (shaft : Shaft) (safety_factor : ℝ) (k : ℕ) :
    optimize_shaft shaft safety_factor (k + 1) =
      Except.error "ValueError: not enough values to unpack (expected 6, got 4)" := rfl

/-- Claim C4 (counterexample): at `Sut = 1e6` Pa (i.e. 1 MPa) the factor
for an unknown surface-finish key is `1`, while the machined coefficients
give `4.51 * 1^(-0.265) = 4.51`; and the reliability factor for an
unmatched key is `1`, not `0.814`. -/
theorem unknown_key_not_machined :
    K_acabamento 1e6 "polido" = 1 ∧
    K_acabamento 1e6 "usinado" = 4.51 ∧
    (1 : ℝ) ≠ 4.51 ∧
    K_conf "0%" = 1 ∧
    (1 : ℝ) ≠ 0.814 := by
  have h1 : acabamentoDict "polido" = none := rfl
  have h2 : acabamentoDict "usinado" = some (4.51, -0.265) := rfl
  have h3 : confDict "0%" = none := rfl
  refine ⟨by norm_num [K_acabamento, h1], ?_, by norm_num, by norm_num [K_conf, h3], by norm_num⟩
  rw [K_acabamento, h2]
  show (4.51 : ℝ) * ((1e6 : ℝ) / 1e6) ^ (-0.265 : ℝ) = 4.51
  rw [show ((1e6 : ℝ) / 1e6) = 1 by norm_num, Real.one_rpow, mul_one]

/-- Claim C4 (amended): an unknown surface-finish key makes
`K_acabamento` return `1.0` (not the machined value), and an unmatched
reliability key makes `K_conf` return `1.0`, the 50% value (not `0.814`);
both lookups are total functions and never raise. -/
theorem unknown_key_defaults (r : ℝ) :
    (∀ s : String, acabamentoDict s = none → K_acabamento r s = 1) ∧
    (∀ c : String, confDict c = none → K_conf c = 1) := by
  constructor
  · intro s h
    norm_num [K_acabamento, h]
  · intro c h
    norm_num [K_conf, h]

/-- Witness for C4 at the unknown keys `polido` and `0%`. -/
theorem unknown_key_defaults_witness :
    acabamentoDict "polido" = none ∧ K_acabamento 380e6 "polido" = 1 ∧
    confDict "0%" = none ∧ K_conf "0%" = 1 :=
  ⟨rfl, (unknown_key_defaults 380e6).1 "polido" rfl,
   rfl, (unknown_key_defaults 380e6).2 "0%" rfl⟩

/-- Claim C6: round trip of the ASME-elliptic sizing.  With positive
`Se`, `Sy`, `n`, nonnegative loads whose terms `A`, `B` are not both
zero, substituting the returned diameter (converted back to metres) into
`(16 / (pi d^3)) * sqrt((A/Se)^2 + (B/Sy)^2)` reproduces `1/n` exactly. -/
theorem asme_elliptic_roundtrip (Sut Se Sy Kf Kfs n Ma Mm Ta Tm : ℝ)
    (hSe : 0 < Se) (hSy : 0 < Sy) (hn : 0 < n)
    (hMa : 0 ≤ Ma) (hMm : 0 ≤ Mm) (hTa : 0 ≤ Ta) (hTm : 0 ≤ Tm)
    (hAB : 0 < loadTerm Kf Kfs Ma Ta ∨ 0 < loadTerm Kf Kfs Mm Tm) :
    16 / (Real.pi * (calculate_min_diameter Ma Tm Sut Sy Mm Ta Kf Kfs n none (some Se) / 1000) ^ 3)
        * Real.sqrt ((loadTerm Kf Kfs Ma Ta / Se) ^ 2 + (loadTerm Kf Kfs Mm Tm / Sy) ^ 2)
      = 1 / n := by
  set A := loadTerm Kf Kfs Ma Ta with hA
  set B := loadTerm Kf Kfs Mm Tm with hB
  set R := Real.sqrt ((A / Se) ^ 2 + (B / Sy) ^ 2) with hR
  have hApos : 0 ≤ A := Real.sqrt_nonneg _
  have hBpos : 0 ≤ B := Real.sqrt_nonneg _
  have hRpos : 0 < R := by
    rw [hR]
    apply Real.sqrt_pos.mpr
    rcases hAB with h | h
    · exact add_pos_of_pos_of_nonneg (pow_pos (div_pos h hSe) 2) (sq_nonneg _)
    · exact add_pos_of_nonneg_of_pos (sq_nonneg _) (pow_pos (div_pos h hSy) 2)
  have hse : se_used none (some Se) Sut = Se := by
    simp [se_used, ne_of_gt hSe]
  have hd : calculate_min_diameter Ma Tm Sut Sy Mm Ta Kf Kfs n none (some Se) =
      (16.0 * n / Real.pi * R) ^ ((1 : ℝ) / 3) * 1000.0 := by
    rw [calculate_min_diameter, hse]
  have hbase : 0 ≤ 16.0 * n / Real.pi * R :=
    mul_nonneg (div_nonneg (by linarith) Real.pi_pos.le) hRpos.le
  have hcube : ((16.0 * n / Real.pi * R) ^ ((1 : ℝ) / 3) * 1000.0 / 1000) ^ 3
      = 16.0 * n / Real.pi * R := by
    rw [show (16.0 * n / Real.pi * R) ^ ((1 : ℝ) / 3) * 1000.0 / 1000
          = (16.0 * n / Real.pi * R) ^ ((1 : ℝ) / 3) by ring]
    rw [show (((16.0 * n / Real.pi * R) ^ ((1 : ℝ) / 3)) ^ (3 : ℕ) : ℝ)
          = ((16.0 * n / Real.pi * R) ^ ((1 : ℝ) / 3)) ^ ((3 : ℕ) : ℝ) from
        (Real.rpow_natCast _ 3).symm]
    rw [← Real.rpow_mul hbase]
    norm_num
  rw [hd, hcube]
  have hpi := Real.pi_pos
  field_simp
  ring

/-- Witness for C6 at `Se = Sy = Kf = Kfs = n = Ma = 1`,
`Mm = Ta = Tm = 0`. -/
theorem asme_elliptic_roundtrip_witness :
    (0 : ℝ) < 1 ∧ 0 < loadTerm 1 1 1 0 ∧
    16 / (Real.pi * (calculate_min_diameter 1 0 1 1 0 0 1 1 1 none (some 1) / 1000) ^ 3)
        * Real.sqrt ((loadTerm 1 1 1 0 / 1) ^ 2 + (loadTerm 1 1 0 0 / 1) ^ 2) = 1 / 1 := by
  have hA : 0 < loadTerm 1 1 1 0 := by
    rw [loadTerm]
    apply Real.sqrt_pos.mpr
    norm_num
  exact ⟨one_pos, hA,
    asme_elliptic_roundtrip 1 1 1 1 1 1 1 0 0 0 one_pos one_pos one_pos
      zero_le_one le_rfl le_rfl le_rfl (Or.inl hA)⟩

/-- Claim C9: with a positive endurance limit actually used (supplied via
`se_overwrite` or computed), positive `Sy` and a nonnegative safety
factor, `calculate_min_diameter` is total: it returns a nonnegative real
number, and returns exactly `0` when all four load inputs are zero.  (A
negative safety factor would make the Python float power produce a
complex number and is outside the real-valued model; every call site uses
a positive `n`.) -/
theorem calculate_min_diameter_total
    (moment_amp torque_mean Sut Sy moment_mean torque_amp Kf Kfs n : ℝ)
    (fatigue_config : Option FatigueConfig) (se_overwrite : Option ℝ)
    (hSe : 0 < se_used fatigue_config se_overwrite Sut)
    (hSy : 0 < Sy) (hn : 0 ≤ n) :
    0 ≤ calculate_min_diameter moment_amp torque_mean Sut Sy moment_mean
          torque_amp Kf Kfs n fatigue_config se_overwrite ∧
    (moment_amp = 0 → moment_mean = 0 → torque_amp = 0 → torque_mean = 0 →
      calculate_min_diameter moment_amp torque_mean Sut Sy moment_mean
          torque_amp Kf Kfs n fatigue_config se_overwrite = 0) := by
  constructor
  · rw [calculate_min_diameter]
    have hbase : 0 ≤ 16.0 * n / Real.pi *
        Real.sqrt ((loadTerm Kf Kfs moment_amp torque_amp /
            se_used fatigue_config se_overwrite Sut) ^ 2 +
          (loadTerm Kf Kfs moment_mean torque_mean / Sy) ^ 2) :=
      mul_nonneg (div_nonneg (by linarith) Real.pi_pos.le) (Real.sqrt_nonneg _)
    exact mul_nonneg (Real.rpow_nonneg hbase _) (by norm_num)
  · intro h1 h2 h3 h4
    rw [h1, h2, h3, h4]
    have hz : loadTerm Kf Kfs 0 0 = 0 := by
      simp [loadTerm]
    rw [calculate_min_diameter, hz]
    simp [Real.zero_rpow (by norm_num : ((1 : ℝ) / 3) ≠ 0)]

/-- Witness for C9 with `se_overwrite = 1`, `Sy = 1`, `n = 2` and all
loads zero. -/
theorem calculate_min_diameter_total_witness :
    0 < se_used none (some 1) 380e6 ∧ (0 : ℝ) < 1 ∧ (0 : ℝ) ≤ 2 ∧
    0 ≤ calculate_min_diameter 0 0 380e6 1 0 0 1 1 2 none (some 1) ∧
    calculate_min_diameter 0 0 380e6 1 0 0 1 1 2 none (some 1) = 0 := by
  have hse : (0 : ℝ) < se_used none (some 1) 380e6 := by
    simp [se_used]
  have h := calculate_min_diameter_total 0 0 380e6 1 0 0 1 1 2 none (some 1)
    hse one_pos (by norm_num)
  exact ⟨hse, one_pos, by norm_num, h.1, h.2 rfl rfl rfl rfl⟩

end ShaftDesigner
